import Mathlib

/-!
Verification of the mirage seed-image core (catalog_seed_image.py,
ephemeris_tools.py) against its natural-language specification.

Shallow embedding conventions:
- Python floats that only feed exact integer/branch logic are modelled as
  rationals (ℚ); machine integers as ℤ or ℕ.
- numpy arrays appear either as lists or as index functions, whichever is
  closest to how the code manipulates them.
- Fallible code returns Except or Option.
- External library calls (scipy interp1d, astropy Sersic2D, astrometric
  transforms) are modelled as function parameters supplied by the caller,
  since the repository treats them as black boxes.
-/

namespace Mirage

/-! ## StampPlacer: Catalog_seed.cropped_coords

Embedding of catalog_seed_image.py, Catalog_seed.cropped_coords
(lines 3572 to 3618).  The code first floors the four float coordinates to
integers, so the integer core is factored out below and the entry point
applies Int.floor exactly where the python applies math.floor.
The eight-tuple return value is (i1, i2, j1, j2, k1, k2, l1, l2); the
tuple of eight Nones is modelled as none. -/
/-- Integer core of cropped_coords, operating on the already-floored
coordinates.  Mirrors the python line by line: dims tuples are (y, x). -/
def cropped_coords_floored (aperture_x aperture_y : ℤ) (aperture_dims : ℤ × ℤ)
    (stamp_x stamp_y : ℤ) (stamp_dims : ℤ × ℤ) (ignore_detector : Bool) :
    Option (ℤ × ℤ × ℤ × ℤ × ℤ × ℤ × ℤ × ℤ) :=
  let stamp_y_dim := stamp_dims.1
  let stamp_x_dim := stamp_dims.2
  let aperture_y_dim := aperture_dims.1
  let aperture_x_dim := aperture_dims.2
  let i1 := aperture_x - stamp_x
  let j1 := aperture_y - stamp_y
  if (i1 > aperture_x_dim ∨ j1 > aperture_y_dim) ∧ ignore_detector = false then
    none
  else
    let delta_i1 : ℤ := if ignore_detector = false ∧ i1 < 0 then i1 else 0
    let i1 : ℤ := if ignore_detector = false ∧ i1 < 0 then 0 else i1
    let delta_j1 : ℤ := if ignore_detector = false ∧ j1 < 0 then j1 else 0
    let j1 : ℤ := if ignore_detector = false ∧ j1 < 0 then 0 else j1
    let i2 := i1 + (stamp_x_dim + delta_i1)
    let j2 := j1 + (stamp_y_dim + delta_j1)
    if (i2 < 0 ∨ j2 < 0) ∧ ignore_detector = false then
      none
    else
      let delta_i2 : ℤ := if ignore_detector = false ∧ i2 > aperture_x_dim then i2 - aperture_x_dim else 0
      let i2 : ℤ := if ignore_detector = false ∧ i2 > aperture_x_dim then aperture_x_dim else i2
      let delta_j2 : ℤ := if ignore_detector = false ∧ j2 > aperture_y_dim then j2 - aperture_y_dim else 0
      let j2 : ℤ := if ignore_detector = false ∧ j2 > aperture_y_dim then aperture_y_dim else j2
      let k1 := 0 - delta_i1
      let k2 := stamp_x_dim - delta_i2
      let l1 := 0 - delta_j1
      let l2 := stamp_y_dim - delta_j2
      some (i1, i2, j1, j2, k1, k2, l1, l2)

/-- Catalog_seed.cropped_coords: float inputs are floored with math.floor
before the integer window arithmetic begins. -/
def cropped_coords (aperture_x aperture_y : ℚ) (aperture_dims : ℤ × ℤ)
    (stamp_x stamp_y : ℚ) (stamp_dims : ℤ × ℤ) (ignore_detector : Bool) :
    Option (ℤ × ℤ × ℤ × ℤ × ℤ × ℤ × ℤ × ℤ) :=
  cropped_coords_floored ⌊aperture_x⌋ ⌊aperture_y⌋ aperture_dims
    ⌊stamp_x⌋ ⌊stamp_y⌋ stamp_dims ignore_detector

/-- Intersection of two half-open integer intervals [lo1, hi1) and
[lo2, hi2), computed independently by interval arithmetic. -/
def intervalIntersection (lo1 hi1 lo2 hi2 : ℤ) : ℤ × ℤ :=
  (max lo1 lo2, min hi1 hi2)

/-- The aperture-space window property that the specification claims for
every non-None result of cropped_coords in in-bounds mode: the aperture
window bounds are strictly ordered and within the aperture. -/
def strictWindow (aperture_dims : ℤ × ℤ) (w : ℤ × ℤ × ℤ × ℤ × ℤ × ℤ × ℤ × ℤ) : Prop :=
  0 ≤ w.1 ∧ w.1 < w.2.1 ∧ w.2.1 ≤ aperture_dims.2 ∧
  0 ≤ w.2.2.1 ∧ w.2.2.1 < w.2.2.2.1 ∧ w.2.2.2.1 ≤ aperture_dims.1

instance (aperture_dims : ℤ × ℤ) (w : ℤ × ℤ × ℤ × ℤ × ℤ × ℤ × ℤ × ℤ) :
    Decidable (strictWindow aperture_dims w) := by
  unfold strictWindow; infer_instance

/-! ## Moving-target sub-frame sampling: ephemeris_tools.calculate_nested_positions

Embedding of ephemeris_tools.py, calculate_nested_positions (lines 81 to
131).  The python computes delta_pos = sqrt(delta_ra**2 + delta_dec**2) and
num_sub_frame_points = int(np.ceil(delta_pos / spatial_frequency)).  Over
the rationals this is the ceiling of the square root of
(delta_ra^2 + delta_dec^2) / spatial_frequency^2 whenever the spatial
frequency is positive, which is what ceilSqrt computes exactly.
The scipy interp1d constructor and the ephemeris interpolation functions
are external black boxes and enter as function parameters. -/
/-- Ceiling of the square root of a rational: the least natural n with
q ≤ n^2 (0 for nonpositive q). -/
def ceilSqrt (q : ℚ) : ℕ :=
  if q ≤ 0 then 0
  else if q ≤ (Nat.sqrt (Int.toNat ⌈q⌉) : ℚ) ^ 2 then Nat.sqrt (Int.toNat ⌈q⌉)
  else Nat.sqrt (Int.toNat ⌈q⌉) + 1

/-- Units flag of calculate_nested_positions. -/
inductive PositionUnits
  | angular
  | pixels
deriving DecidableEq

instance {ε α : Type} [DecidableEq ε] [DecidableEq α] : DecidableEq (Except ε α) :=
  fun x y =>
    match x, y with
    | Except.ok a, Except.ok b =>
        if h : a = b then Decidable.isTrue (h ▸ rfl)
        else Decidable.isFalse (fun hc => h (Except.ok.inj hc))
    | Except.error a, Except.error b =>
        if h : a = b then Decidable.isTrue (h ▸ rfl)
        else Decidable.isFalse (fun hc => h (Except.error.inj hc))
    | Except.ok _, Except.error _ => Decidable.isFalse Except.noConfusion
    | Except.error _, Except.ok _ => Decidable.isFalse Except.noConfusion

/-- Number of sub-frame points for one frame interval:
int(np.ceil(sqrt(delta_ra^2 + delta_dec^2) / spatial_frequency)) computed
exactly over the rationals. -/
def numSubFramePoints (delta_ra delta_dec spatial_frequency : ℚ) : ℕ :=
  ceilSqrt ((delta_ra ^ 2 + delta_dec ^ 2) / spatial_frequency ^ 2)

/-- Sub-frame sample times for one frame interval, given the number of
points: the elif chain of calculate_nested_positions.  In the more-than-two
branch the python spreads the points evenly with
subframe_delta_time = (frame_end - frame_start) / (num - 1) and emits
frame_start + subframe_delta_time * n for n in range(num). -/
def sub_frame_times (t_prev t_cur : ℚ) (n : ℕ) : List ℚ :=
  if n = 1 then [t_cur]
  else if n = 2 then [t_prev, t_cur]
  else if 2 < n then
    (List.range n).map (fun k => t_prev + ((t_cur - t_prev) / ((n : ℚ) - 1)) * (k : ℚ))
  else [t_cur]

/-- Loop body of calculate_nested_positions over the frame lists.  The
heads of the three lists are the python x_or_ra_frames[i], y_or_dec_frames[i],
times_list[i] and the loop runs while a successor frame exists, exactly as
the python iterates over zip(x[1:], y[1:], t[1:]) while indexing x[i].
In the pixels branch the python never assigns delta_ra / delta_dec, so the
first use raises UnboundLocalError; the embedding surfaces that as an
Except.error. -/
def calculate_nested_positions_loop (spatial_frequency : ℚ)
    (eph : Option ((ℚ → ℚ) × (ℚ → ℚ))) (units : PositionUnits)
    (ra_interpol dec_interpol : ℚ → ℚ) :
    List ℚ → List ℚ → List ℚ →
      Except String (List (List ℚ) × List (List ℚ) × List (List ℚ))
  | x0 :: x1 :: xs, _y0 :: y1 :: ys, t0 :: t1 :: ts => do
      let deltas : ℚ × ℚ ← match units with
        | PositionUnits.angular => Except.ok ((x1 - x0) * 3600, (y1 - _y0) * 3600)
        | PositionUnits.pixels =>
            Except.error "UnboundLocalError: local variable delta_ra referenced before assignment"
      let n := numSubFramePoints deltas.1 deltas.2 spatial_frequency
      let sft := sub_frame_times t0 t1 n
      let subframe_ra := match eph, units with
        | some e, PositionUnits.angular => sft.map e.1
        | _, _ => sft.map ra_interpol
      let subframe_dec := match eph, units with
        | some e, PositionUnits.angular => sft.map e.2
        | _, _ => sft.map dec_interpol
      let rest ← calculate_nested_positions_loop spatial_frequency eph units
        ra_interpol dec_interpol (x1 :: xs) (y1 :: ys) (t1 :: ts)
      Except.ok (subframe_ra :: rest.1, subframe_dec :: rest.2.1, sft :: rest.2.2)
  | _, _, _ => Except.ok ([], [], [])

/-- ephemeris_tools.calculate_nested_positions.  The scipy interp1d
constructor is passed in as a parameter; the python builds the fallback
interpolants from the full times and position lists before the loop.
The python takes ra_ephemeris and dec_ephemeris as two parameters that all
callers pass together, modelled as one optional pair. -/
def calculate_nested_positions (interp1d : List ℚ → List ℚ → ℚ → ℚ)
    (x_or_ra_frames y_or_dec_frames times_list : List ℚ)
    (spatial_frequency : ℚ) (eph : Option ((ℚ → ℚ) × (ℚ → ℚ)))
    (position_units : PositionUnits) :
    Except String (List (List ℚ) × List (List ℚ) × List (List ℚ)) :=
  calculate_nested_positions_loop spatial_frequency eph position_units
    (interp1d times_list x_or_ra_frames) (interp1d times_list y_or_dec_frames)
    x_or_ra_frames y_or_dec_frames times_list

/-! ## SegmentationAccumulator: Catalog_seed.add_segmentation_maps

Embedding of catalog_seed_image.py, add_segmentation_maps (lines 2624 to
2645).  The two numpy arrays have equal shape and the operation is purely
pointwise, so segmentation maps are modelled as integer-valued pixel maps:
combined = deepcopy(map1); combined[map1 == 0] += map2[map1 == 0]. -/
/-- Catalog_seed.add_segmentation_maps, pointwise. -/
def add_segmentation_maps (map1 map2 : ℕ × ℕ → ℤ) : ℕ × ℕ → ℤ :=
  fun p => if map1 p = 0 then map1 p + map2 p else map1 p

/-! ## ExposureSegmenter: the final-segment adjustment in make_seed

Embedding of catalog_seed_image.py, make_seed lines 260 to 268: when the
file split produces more than two breakpoints and the last integration
delta is 1 while the first is not, the next-to-last breakpoint is shifted
down by one.  file_segment_indexes is a 1-D integer array of breakpoints;
delta_int = fsi[1:] - fsi[0:-1]; python negative indexing fsi[-2] is the
second entry of the reversed list. -/
/-- First integration delta of a breakpoint list: delta_int[0]. -/
def firstDelta (fsi : List ℤ) : ℤ := fsi.getD 1 0 - fsi.getD 0 0

/-- Last integration delta of a breakpoint list: delta_int[-1]. -/
def lastDelta (fsi : List ℤ) : ℤ := fsi.reverse.getD 0 0 - fsi.reverse.getD 1 0

/-- The adjustment applied to self.file_segment_indexes in make_seed. -/
def adjust_file_segment_indexes (fsi : List ℤ) : List ℤ :=
  if 2 < fsi.length then
    if lastDelta fsi = 1 ∧ firstDelta fsi ≠ 1 then
      match fsi.reverse with
      | c :: b :: rest => (c :: (b - 1) :: rest).reverse
      | l => l.reverse
    else fsi
  else fsi

/-! ## SourceRasterizer: the Sersic signal check in Catalog_seed.create_galaxy

Embedding of catalog_seed_image.py, create_galaxy lines 4240 to 4250.  The
evaluated Sersic2D model stamp is an astropy black box, so it enters as
the stamp argument (flattened to a list; only its sum matters here).
The python: sig_diff = np.absolute(1 - np.sum(stamp) / (total_counts * limit));
if sig_diff > signal_matching_threshold: stamp = stamp / np.sum(stamp) * (total_counts * limit). -/
/-- Modelled from the spec: SERSIC_FRACTIONAL_SIGNAL is imported from
mirage/utils/constants.py, which is not among the given sources.  The spec
describes it as the configurable captured-flux fraction used to size
galaxy stamps, a fraction of the total flux that the size cap can shrink
further, hence strictly below one; it is modelled with the nominal value
0.9995.  The theorems below only rely on 0 < SERSIC_FRACTIONAL_SIGNAL < 1. -/
def SERSIC_FRACTIONAL_SIGNAL : ℚ := 9995 / 10000

/-- Signal-check-and-rescale stage of create_galaxy.  The python local
limit starts at SERSIC_FRACTIONAL_SIGNAL and is only lowered by the
stamp-size cap, so it is kept as a parameter here. -/
def create_galaxy_rescale (stamp : List ℚ) (total_counts limit threshold : ℚ) : List ℚ :=
  if |1 - stamp.sum / (total_counts * limit)| > threshold then
    stamp.map (fun v => v / stamp.sum * (total_counts * limit))
  else stamp

/-! ## MovingTargetIntegrator: the per-source dispatch of movingTargetInputs

Embedding of the control flow of catalog_seed_image.py,
Catalog_seed.movingTargetInputs (lines 1479 to 1752) that decides claim C6.
External numeric steps enter as oracles: fov_ok is the
remove_outside_fov_sources pre-filter, on_detector the point-source
status check, psf_ok whether create_psf_stamp returned a usable PSF
(psf_frames_nested[0][0] is not None).  The loop skips a source when the
point-source status check says off-detector or the PSF is None, raises the
ghost NotImplementedError when add_ghosts is set, and otherwise dispatches
on input_type: point sources are processed, extended and galaxies raise
NotImplementedError. -/
/-- The three input types of movingTargetInputs. -/
inductive MTInputType
  | point_source
  | extended
  | galaxies
deriving DecidableEq

/-- Message of the python raise for each unsupported moving input type
(empty for the supported point-source path, which never raises it). -/
def not_supported_message : MTInputType → String
  | MTInputType.point_source => ""
  | MTInputType.extended => "Moving extended objects not yet supported."
  | MTInputType.galaxies => "Moving 2D sersic objects not yet supported."

/-- Source loop of movingTargetInputs; the ok value collects the processed
point sources. -/
def movingTargetInputs_loop {σ : Type} (input_type : MTInputType) (add_ghosts : Bool)
    (on_detector psf_ok : σ → Bool) : List σ → Except String (List σ)
  | [] => Except.ok []
  | s :: rest =>
      if input_type = MTInputType.point_source ∧ on_detector s = false then
        movingTargetInputs_loop input_type add_ghosts on_detector psf_ok rest
      else if psf_ok s = false then
        movingTargetInputs_loop input_type add_ghosts on_detector psf_ok rest
      else if add_ghosts then
        Except.error
          "Need to update to work with gridded PSF evaluations and nested ra_frames, dec_frames."
      else
        match input_type with
        | MTInputType.point_source =>
            (movingTargetInputs_loop input_type add_ghosts on_detector psf_ok rest).map (s :: ·)
        | MTInputType.extended => Except.error (not_supported_message MTInputType.extended)
        | MTInputType.galaxies => Except.error (not_supported_message MTInputType.galaxies)

/-- Catalog_seed.movingTargetInputs, reduced to the claim-relevant control
flow: the catalog is pre-filtered by remove_outside_fov_sources and the
surviving sources are processed in order. -/
def movingTargetInputs {σ : Type} (input_type : MTInputType) (add_ghosts : Bool)
    (fov_ok on_detector psf_ok : σ → Bool) (sources : List σ) : Except String (List σ) :=
  movingTargetInputs_loop input_type add_ghosts on_detector psf_ok (sources.filter fov_ok)

/-! ## The index-uniqueness gate at the top of make_seed

catalog_seed_image.py, make_seed lines 168 to 179: the used catalogs are
collected, catalog_index_check reports overlapping indexes, and a
ValueError is raised before any further work.  determine_used_cats and
catalog_index_check themselves live in mirage/catalogs/utils.py, outside
the given sources, so they are modelled from the spec. -/
/-- Modelled from the spec: catalog_index_check overlap test.  The spec
requires a fatal configuration error when two catalogs share an index
value; a catalog is modelled by its list of index values and the check
reports whether some value occurs in two distinct catalogs. -/
def cats_overlap : List (List ℕ) → Bool
  | [] => false
  | c :: rest => c.any (fun v => rest.any (fun c2 => decide (v ∈ c2))) || cats_overlap rest

/-- Modelled from the spec: catalog_index_check returns the overlap flag
and the maximum source index over all used catalogs. -/
def catalog_index_check (used_cats : List (List ℕ)) : Bool × ℕ :=
  (cats_overlap used_cats, (used_cats.map (fun c => c.foldr max 0)).foldr max 0)

/-- Index-check prefix of make_seed.  The rest of make_seed (all
rasterization work) is the rasterize parameter, so the model shows that
nothing of it is run on the error path. -/
def make_seed_index_check {α : Type} (used_cats : List (List ℕ)) (rasterize : Unit → α) :
    Except String α :=
  if (catalog_index_check used_cats).1 = true then
    Except.error
      "At least two of the input source catalogs have overlapping index values. Each source across all catalogs should have a unique index value."
  else Except.ok (rasterize ())

/-! ## Non-sidereal tracking offsets in movingTargetInputs

Embedding of catalog_seed_image.py, movingTargetInputs lines 1451 to 1476
(the per-frame offsets of the tracked target) and lines 1565 to 1607 (the
subtraction applied to every background source).  frameexptimes is
frametime * np.arange(-1, total_frames), so its first entry is one
frametime before clock zero. -/
/-- Exposure frame times: frametime * np.arange(-1, total_frames). -/
def frameexptimes (frametime : ℚ) (total_frames : ℕ) : List ℚ :=
  (List.range (total_frames + 1)).map (fun k : ℕ => frametime * ((k : ℚ) - 1))

/-- Tracked-target offsets from an ephemeris interpolation function:
delta = interp(all_times) - interp(all_times)[0]. -/
def delta_non_sidereal_eph (interp : ℚ → ℚ) (all_times : List ℚ) : List ℚ :=
  (all_times.map interp).map (fun v => v - (all_times.map interp).headD 0)

/-- Tracked-target offsets from a manual velocity in pixels per hour:
delta = (tracking_ra_vel / 3600) * frameexptimes. -/
def delta_non_sidereal_vel_pix (tracking_vel : ℚ) (fet : List ℚ) : List ℚ :=
  fet.map (fun t => tracking_vel / 3600 * t)

/-- Tracked-target offsets from a manual velocity in arcsec per hour:
delta = (tracking_ra_vel / 3600 / 3600) * frameexptimes. -/
def delta_non_sidereal_vel_ang (tracking_vel : ℚ) (fet : List ℚ) : List ℚ :=
  fet.map (fun t => tracking_vel / 3600 / 3600 * t)

/-- Background-source position update under non-sidereal tracking:
pos -= delta, elementwise over the frame lists. -/
def apply_tracking_offset (pos delta : List ℚ) : List ℚ :=
  List.zipWith (fun a b => a - b) pos delta

set_option maxHeartbeats 1000000 in
/-- Characterization of the none result of cropped_coords_floored in
in-bounds mode: the tuple of Nones is returned exactly when one of the two
explicit guards in the python fires. -/
theorem cropped_coords_floored_none_iff (ax ay : ℤ) (ayd axd : ℤ) (sx sy : ℤ) (syd sxd : ℤ) :
    cropped_coords_floored ax ay (ayd, axd) sx sy (syd, sxd) false = none ↔
      ((ax - sx > axd ∨ ay - sy > ayd) ∨ (ax - sx + sxd < 0 ∨ ay - sy + syd < 0)) := by
  unfold cropped_coords_floored
  dsimp only
  simp only [eq_self_iff_true, and_true, true_and]
  split_ifs <;> simp <;> omega

set_option maxHeartbeats 1000000 in
/-- Characterization of a non-None result of cropped_coords_floored in
in-bounds mode: every returned window bound is the clamped bound of the
interval intersection of the aperture with the stamp footprint. -/
theorem cropped_coords_floored_some (ax ay : ℤ) (ayd axd : ℤ) (sx sy : ℤ) (syd sxd : ℤ)
    (i1 i2 j1 j2 k1 k2 l1 l2 : ℤ)
    (h : cropped_coords_floored ax ay (ayd, axd) sx sy (syd, sxd) false =
      some (i1, i2, j1, j2, k1, k2, l1, l2)) :
    i1 = max 0 (ax - sx) ∧ i2 = min axd (ax - sx + sxd) ∧
    j1 = max 0 (ay - sy) ∧ j2 = min ayd (ay - sy + syd) ∧
    k1 = max 0 (sx - ax) ∧ k2 = sxd - max 0 (ax - sx + sxd - axd) ∧
    l1 = max 0 (sy - ay) ∧ l2 = syd - max 0 (ay - sy + syd - ayd) := by
  unfold cropped_coords_floored at h
  dsimp only at h
  simp only [eq_self_iff_true, and_true, true_and] at h
  split_ifs at h <;>
    simp only [Option.some.injEq, Prod.mk.injEq, reduceCtorEq] at h <;>
    omega

/-- Helper: a non-None in-bounds result exists exactly when neither guard
fires. -/
theorem cropped_coords_floored_isSome (ax ay : ℤ) (ayd axd : ℤ) (sx sy : ℤ) (syd sxd : ℤ)
    (hg : ¬ ((ax - sx > axd ∨ ay - sy > ayd) ∨ (ax - sx + sxd < 0 ∨ ay - sy + syd < 0))) :
    ∃ w, cropped_coords_floored ax ay (ayd, axd) sx sy (syd, sxd) false = some w := by
  cases hcc : cropped_coords_floored ax ay (ayd, axd) sx sy (syd, sxd) false with
  | none =>
      exact absurd ((cropped_coords_floored_none_iff ax ay ayd axd sx sy syd sxd).mp hcc) hg
  | some w => exact ⟨w, rfl⟩

/-- C1: the specification claims strict ordering i1 < i2 (and j1 < j2) for
every non-None in-bounds result.  This fails: a stamp whose floored offset
lands exactly at the aperture right edge (offset = aperture_x_dim) passes
the first guard and is clipped to a zero-width window instead of None.
Here aperture 10 by 10, stamp 3 by 3 placed with x-offset 10: the result is
the degenerate window i1 = i2 = 10, refuting 0 ≤ i1 < i2 ≤ aperture_x_dim. -/
theorem C1_counterexample :
    cropped_coords 10 5 (10, 10) 0 0 (3, 3) false = some (10, 10, 5, 8, 0, 0, 0, 3) ∧
    ¬ strictWindow (10, 10) (10, 10, 5, 8, 0, 0, 0, 3) := by
  constructor
  · rfl
  · decide

/-- C1 (amended): in in-bounds mode, every non-None result of
cropped_coords is exactly the interval-arithmetic intersection of the
aperture rectangle with the stamp footprint, in both aperture coordinates
(i, j windows) and stamp coordinates (k, l windows); the aperture windows
satisfy the weakened bound 0 ≤ i1 ≤ i2 ≤ aperture_x_dim (equality occurs in
the degenerate abutting cases) and symmetrically for y, and the aperture
and stamp windows have equal extents. -/
theorem C1_amended_window_eq_intersection (ax ay : ℚ) (ayd axd : ℤ) (sx sy : ℚ) (syd sxd : ℤ)
    (hsxd : 1 ≤ sxd) (hsyd : 1 ≤ syd) (haxd : 1 ≤ axd) (hayd : 1 ≤ ayd)
    (i1 i2 j1 j2 k1 k2 l1 l2 : ℤ)
    (h : cropped_coords ax ay (ayd, axd) sx sy (syd, sxd) false =
      some (i1, i2, j1, j2, k1, k2, l1, l2)) :
    (i1, i2) = intervalIntersection 0 axd (⌊ax⌋ - ⌊sx⌋) (⌊ax⌋ - ⌊sx⌋ + sxd) ∧
    (j1, j2) = intervalIntersection 0 ayd (⌊ay⌋ - ⌊sy⌋) (⌊ay⌋ - ⌊sy⌋ + syd) ∧
    (k1, k2) = intervalIntersection 0 sxd (⌊sx⌋ - ⌊ax⌋) (⌊sx⌋ - ⌊ax⌋ + axd) ∧
    (l1, l2) = intervalIntersection 0 syd (⌊sy⌋ - ⌊ay⌋) (⌊sy⌋ - ⌊ay⌋ + ayd) ∧
    0 ≤ i1 ∧ i1 ≤ i2 ∧ i2 ≤ axd ∧ 0 ≤ j1 ∧ j1 ≤ j2 ∧ j2 ≤ ayd ∧
    i2 - i1 = k2 - k1 ∧ j2 - j1 = l2 - l1 := by
  unfold cropped_coords at h
  have hg : ¬ ((⌊ax⌋ - ⌊sx⌋ > axd ∨ ⌊ay⌋ - ⌊sy⌋ > ayd) ∨
      (⌊ax⌋ - ⌊sx⌋ + sxd < 0 ∨ ⌊ay⌋ - ⌊sy⌋ + syd < 0)) := by
    intro hg
    rw [(cropped_coords_floored_none_iff _ _ _ _ _ _ _ _).mpr hg] at h
    exact Option.noConfusion h
  obtain ⟨e1, e2, e3, e4, e5, e6, e7, e8⟩ :=
    cropped_coords_floored_some _ _ _ _ _ _ _ _ _ _ _ _ _ _ _ _ h
  unfold intervalIntersection
  refine ⟨?_, ?_, ?_, ?_, ?_, ?_, ?_, ?_, ?_, ?_, ?_, ?_⟩ <;>
    first
      | omega
      | (simp only [Prod.mk.injEq]; exact ⟨by omega, by omega⟩)

/-- C1 (amended) witness: a stamp overlapping the left aperture edge. -/
theorem C1_amended_witness :
    ((0 : ℤ), (2 : ℤ)) = intervalIntersection 0 10 (-1) 2 := by
  have h := C1_amended_window_eq_intersection 2 4 10 10 3 1 3 3
    (by decide) (by decide) (by decide) (by decide)
    0 2 3 6 1 3 0 3 (by rfl)
  exact h.1

/-- C2: the specification claims a stamp exactly abutting the aperture
edge (stamp right edge at aperture column -1) yields None.  It does not:
with aperture 10 by 10 and a 3 by 3 stamp whose floored x-offset is -3
(stamp columns -3..-1, right edge exactly one pixel left of the aperture),
the code clips to the degenerate window i1 = i2 = 0 and returns it instead
of None. -/
theorem C2_counterexample :
    cropped_coords 0 5 (10, 10) 3 0 (3, 3) false = some (0, 0, 5, 8, 3, 3, 0, 3) ∧
    cropped_coords 0 5 (10, 10) 3 0 (3, 3) false ≠ none := by
  constructor
  · rfl
  · intro hc
    exact Option.noConfusion ((rfl : cropped_coords 0 5 (10, 10) 3 0 (3, 3) false =
      some (0, 0, 5, 8, 3, 3, 0, 3)) ▸ hc)

/-- C2 (amended): at the x boundary, with the y footprint fully in bounds,
the in-bounds ladder of cropped_coords is: a stamp one full pixel beyond
abutting (floored offset s with s + stamp_x_dim = -1, or s = aperture_x_dim
+ 1) gives None; a stamp exactly abutting (s + stamp_x_dim = 0, or
s = aperture_x_dim) gives a degenerate zero-width window, not None; a stamp
one pixel into the aperture (s + stamp_x_dim = 1, or s = aperture_x_dim - 1)
gives a 1-pixel-wide overlap window. -/
theorem C2_amended_abutting_ladder (ax ay : ℚ) (ayd axd : ℤ) (sx sy : ℚ) (syd sxd : ℤ)
    (hsxd : 1 ≤ sxd) (hsyd : 1 ≤ syd) (haxd : 1 ≤ axd) (hayd : 1 ≤ ayd)
    (hy0 : 0 ≤ ⌊ay⌋ - ⌊sy⌋) (hy1 : ⌊ay⌋ - ⌊sy⌋ + syd ≤ ayd) :
    (⌊ax⌋ - ⌊sx⌋ + sxd = -1 →
      cropped_coords ax ay (ayd, axd) sx sy (syd, sxd) false = none) ∧
    (⌊ax⌋ - ⌊sx⌋ + sxd = 0 →
      cropped_coords ax ay (ayd, axd) sx sy (syd, sxd) false =
        some (0, 0, ⌊ay⌋ - ⌊sy⌋, ⌊ay⌋ - ⌊sy⌋ + syd, sxd, sxd, 0, syd)) ∧
    (⌊ax⌋ - ⌊sx⌋ + sxd = 1 →
      cropped_coords ax ay (ayd, axd) sx sy (syd, sxd) false =
        some (0, 1, ⌊ay⌋ - ⌊sy⌋, ⌊ay⌋ - ⌊sy⌋ + syd, sxd - 1, sxd, 0, syd)) ∧
    (⌊ax⌋ - ⌊sx⌋ = axd + 1 →
      cropped_coords ax ay (ayd, axd) sx sy (syd, sxd) false = none) ∧
    (⌊ax⌋ - ⌊sx⌋ = axd →
      cropped_coords ax ay (ayd, axd) sx sy (syd, sxd) false =
        some (axd, axd, ⌊ay⌋ - ⌊sy⌋, ⌊ay⌋ - ⌊sy⌋ + syd, 0, 0, 0, syd)) ∧
    (⌊ax⌋ - ⌊sx⌋ = axd - 1 →
      cropped_coords ax ay (ayd, axd) sx sy (syd, sxd) false =
        some (axd - 1, axd, ⌊ay⌋ - ⌊sy⌋, ⌊ay⌋ - ⌊sy⌋ + syd, 0, 1, 0, syd)) := by
  unfold cropped_coords
  have hsome : ∀ s : ℤ, s = ⌊ax⌋ - ⌊sx⌋ → 0 ≤ s + sxd → s ≤ axd →
      cropped_coords_floored ⌊ax⌋ ⌊ay⌋ (ayd, axd) ⌊sx⌋ ⌊sy⌋ (syd, sxd) false =
        some (max 0 s, min axd (s + sxd), ⌊ay⌋ - ⌊sy⌋, ⌊ay⌋ - ⌊sy⌋ + syd,
          max 0 (-s), sxd - max 0 (s + sxd - axd), 0, syd) := by
    intro s hseq hlo hhi
    obtain ⟨⟨i1, i2, j1, j2, k1, k2, l1, l2⟩, hw⟩ :=
      cropped_coords_floored_isSome ⌊ax⌋ ⌊ay⌋ ayd axd ⌊sx⌋ ⌊sy⌋ syd sxd (by omega)
    obtain ⟨e1, e2, e3, e4, e5, e6, e7, e8⟩ :=
      cropped_coords_floored_some _ _ _ _ _ _ _ _ _ _ _ _ _ _ _ _ hw
    rw [hw]
    simp only [Option.some.injEq, Prod.mk.injEq, true_and, and_true] <;> omega
  refine ⟨?_, ?_, ?_, ?_, ?_, ?_⟩
  · intro hcase
    rw [cropped_coords_floored_none_iff]
    omega
  · intro hcase
    rw [hsome (⌊ax⌋ - ⌊sx⌋) rfl (by omega) (by omega)]
    simp only [Option.some.injEq, Prod.mk.injEq, true_and, and_true] <;> omega
  · intro hcase
    rw [hsome (⌊ax⌋ - ⌊sx⌋) rfl (by omega) (by omega)]
    simp only [Option.some.injEq, Prod.mk.injEq, true_and, and_true] <;> omega
  · intro hcase
    rw [cropped_coords_floored_none_iff]
    omega
  · intro hcase
    rw [hsome (⌊ax⌋ - ⌊sx⌋) rfl (by omega) (by omega)]
    simp only [Option.some.injEq, Prod.mk.injEq, true_and, and_true] <;> omega
  · intro hcase
    rw [hsome (⌊ax⌋ - ⌊sx⌋) rfl (by omega) (by omega)]
    simp only [Option.some.injEq, Prod.mk.injEq, true_and, and_true] <;> omega

/-- C2 (amended) witness: with a 3 by 3 stamp at floored x-offset -2
against a 10 by 10 aperture, one pixel inside from abutting, the overlap
window is exactly one pixel wide. -/
theorem C2_amended_witness :
    cropped_coords 0 5 (10, 10) 2 0 (3, 3) false = some (0, 1, 5, 8, 2, 3, 0, 3) := by
  have h := C2_amended_abutting_ladder 0 5 10 10 2 0 3 3
    (by decide) (by decide) (by decide) (by decide) (by decide) (by decide)
  exact h.2.2.1 (by decide)

/-- Galois characterization of ceilSqrt: it is the least natural whose
square dominates q. -/
theorem ceilSqrt_le_iff (q : ℚ) (n : ℕ) : ceilSqrt q ≤ n ↔ q ≤ (n : ℚ) ^ 2 := by
  unfold ceilSqrt
  split_ifs with hq hs
  · exact ⟨fun _ => hq.trans (by positivity), fun _ => Nat.zero_le n⟩
  · push_neg at hq
    have hc0 : (0 : ℤ) ≤ ⌈q⌉ := Int.ceil_nonneg hq.le
    have hcc : ((Int.toNat ⌈q⌉ : ℚ)) = ((⌈q⌉ : ℤ) : ℚ) := by
      exact_mod_cast Int.toNat_of_nonneg hc0
    have hcq : ((Int.toNat ⌈q⌉ : ℚ)) < q + 1 := by
      rw [hcc]; exact Int.ceil_lt_add_one q
    constructor
    · intro hn
      have hsn : ((Nat.sqrt (Int.toNat ⌈q⌉) : ℚ)) ≤ (n : ℚ) := by exact_mod_cast hn
      have hpos : (0 : ℚ) ≤ ((Nat.sqrt (Int.toNat ⌈q⌉) : ℚ)) := by positivity
      nlinarith [hs]
    · intro hn
      by_contra hlt
      push_neg at hlt
      have h1 : n + 1 ≤ Nat.sqrt (Int.toNat ⌈q⌉) := hlt
      have h2 : (n + 1) ^ 2 ≤ Int.toNat ⌈q⌉ :=
        le_trans (Nat.pow_le_pow_left h1 2) (Nat.sqrt_le' _)
      have h2q : ((n : ℚ) + 1) ^ 2 ≤ ((Int.toNat ⌈q⌉ : ℚ)) := by exact_mod_cast h2
      have hnpos : (0 : ℚ) ≤ (n : ℚ) := by positivity
      nlinarith [hn, hcq, h2q]
  · push_neg at hq hs
    have hc0 : (0 : ℤ) ≤ ⌈q⌉ := Int.ceil_nonneg hq.le
    have hcc : ((Int.toNat ⌈q⌉ : ℚ)) = ((⌈q⌉ : ℤ) : ℚ) := by
      exact_mod_cast Int.toNat_of_nonneg hc0
    have hqc : q ≤ ((Int.toNat ⌈q⌉ : ℚ)) := by
      rw [hcc]; exact Int.le_ceil q
    have hcs : Int.toNat ⌈q⌉ < (Nat.sqrt (Int.toNat ⌈q⌉) + 1) ^ 2 := by
      simpa [Nat.succ_eq_add_one] using Nat.lt_succ_sqrt' (Int.toNat ⌈q⌉)
    have hcsq : ((Int.toNat ⌈q⌉ : ℚ)) < ((Nat.sqrt (Int.toNat ⌈q⌉) : ℚ) + 1) ^ 2 := by
      exact_mod_cast hcs
    constructor
    · intro hn
      have hsn : ((Nat.sqrt (Int.toNat ⌈q⌉) : ℚ)) + 1 ≤ (n : ℚ) := by exact_mod_cast hn
      have hpos : (0 : ℚ) ≤ ((Nat.sqrt (Int.toNat ⌈q⌉) : ℚ)) + 1 := by positivity
      nlinarith [hqc, hcsq]
    · intro hn
      by_contra hlt
      push_neg at hlt
      have hns : n ≤ Nat.sqrt (Int.toNat ⌈q⌉) := by omega
      have hnsq : (n : ℚ) ≤ ((Nat.sqrt (Int.toNat ⌈q⌉) : ℚ)) := by exact_mod_cast hns
      have hnpos : (0 : ℚ) ≤ (n : ℚ) := by positivity
      nlinarith [hn, hs]

/-- C3: the specification claims that a source moving exactly
spatial_frequency between two frames yields exactly 2 sub-frame points.
It does not: with frames at RA 0 and 1/12000 degrees (so the moved
distance is exactly 0.3 arcsec), spatial frequency 0.3 arcsec, ceil(0.3 /
0.3) = 1 lands in the one-point branch and only the frame end time is
returned. -/
theorem C3_counterexample :
    (((1 : ℚ) / 12000 - 0) * 3600 = 3 / 10) ∧
    calculate_nested_positions (fun _ _ _ => 0) [0, 1 / 12000] [0, 0] [0, 1] (3 / 10)
      none PositionUnits.angular = Except.ok ([[0]], [[0]], [[1]]) := by
  constructor
  · norm_num
  · have h1 : numSubFramePoints (((1 : ℚ) / 12000 - 0) * 3600) (((0 : ℚ) - 0) * 3600)
        (3 / 10) = 1 := by
      have h : (((1 : ℚ) / 12000 - 0) * 3600) = 3 / 10 := by norm_num
      have h0 : (((0 : ℚ) - 0) * 3600) = 0 := by norm_num
      rw [numSubFramePoints, h, h0]
      norm_num [ceilSqrt]
    simp only [calculate_nested_positions, calculate_nested_positions_loop, Except.bind, bind]
    simp only [h1]
    simp only [sub_frame_times]
    norm_num

/-- C3 (amended): with a positive spatial frequency, a frame interval whose
moved distance is exactly the spatial frequency gets exactly ONE sub-frame
sample point, the frame end time (ceil(1) = 1); a frame interval with zero
movement also gets exactly one point, the frame end time; exactly two
points (frame start and end) are produced precisely for distances strictly
above one and at most two spatial frequencies. -/
theorem C3_amended_sampling (t0 t1 dra ddec f : ℚ) (hf : 0 < f) :
    (dra ^ 2 + ddec ^ 2 = f ^ 2 →
      sub_frame_times t0 t1 (numSubFramePoints dra ddec f) = [t1]) ∧
    (dra = 0 ∧ ddec = 0 →
      sub_frame_times t0 t1 (numSubFramePoints dra ddec f) = [t1]) ∧
    (f ^ 2 < dra ^ 2 + ddec ^ 2 ∧ dra ^ 2 + ddec ^ 2 ≤ 4 * f ^ 2 →
      sub_frame_times t0 t1 (numSubFramePoints dra ddec f) = [t0, t1]) := by
  have hf2 : (0 : ℚ) < f ^ 2 := by positivity
  refine ⟨?_, ?_, ?_⟩
  · intro hcase
    have hq : (dra ^ 2 + ddec ^ 2) / f ^ 2 = 1 := by
      rw [hcase]
      field_simp
    have hn : numSubFramePoints dra ddec f = 1 := by
      unfold numSubFramePoints
      rw [hq]
      refine Nat.le_antisymm ((ceilSqrt_le_iff 1 1).mpr (by norm_num)) ?_
      by_contra hzero
      have h0 : ceilSqrt 1 ≤ 0 := by omega
      have := (ceilSqrt_le_iff 1 0).mp h0
      norm_num at this
    rw [hn]
    rfl
  · intro hcase
    have hq : (dra ^ 2 + ddec ^ 2) / f ^ 2 = 0 := by
      rw [hcase.1, hcase.2]
      norm_num
    have hn : numSubFramePoints dra ddec f = 0 := by
      unfold numSubFramePoints
      rw [hq]
      have h0 : ceilSqrt 0 ≤ 0 := (ceilSqrt_le_iff 0 0).mpr (by norm_num)
      omega
    rw [hn]
    rfl
  · intro hcase
    have hq1 : 1 < (dra ^ 2 + ddec ^ 2) / f ^ 2 := by
      rw [lt_div_iff hf2]
      nlinarith [hcase.1]
    have hq4 : (dra ^ 2 + ddec ^ 2) / f ^ 2 ≤ 4 := by
      rw [div_le_iff hf2]
      nlinarith [hcase.2]
    have hn : numSubFramePoints dra ddec f = 2 := by
      unfold numSubFramePoints
      refine Nat.le_antisymm ((ceilSqrt_le_iff _ 2).mpr (by push_cast; nlinarith)) ?_
      by_contra hlt
      have h1 : ceilSqrt ((dra ^ 2 + ddec ^ 2) / f ^ 2) ≤ 1 := by omega
      have := (ceilSqrt_le_iff _ 1).mp h1
      push_cast at this
      nlinarith
    rw [hn]
    rfl

/-- C3 (amended) witness: movement of exactly 0.3 arcsec at spatial
frequency 0.3 yields the single sample point at the frame end. -/
theorem C3_amended_witness :
    sub_frame_times 0 1 (numSubFramePoints (3 / 10) 0 (3 / 10)) = [1] := by
  have h := C3_amended_sampling 0 1 (3 / 10) 0 (3 / 10) (by norm_num)
  exact h.1 (by norm_num)

/-- C10: calculate_nested_positions called with position_units pixels and
at least two frames always fails: the pixels branch of the python is a
bare pass, so delta_ra and delta_dec are never assigned and the first loop
iteration raises UnboundLocalError before anything is returned. -/
theorem C10_pixels_always_error (interp1d : List ℚ → List ℚ → ℚ → ℚ)
    (x y t : List ℚ) (f : ℚ) (eph : Option ((ℚ → ℚ) × (ℚ → ℚ)))
    (hx : x.length = t.length) (hy : y.length = t.length) (ht : 2 ≤ t.length) :
    calculate_nested_positions interp1d x y t f eph PositionUnits.pixels =
      Except.error "UnboundLocalError: local variable delta_ra referenced before assignment" := by
  obtain ⟨t0, t1, ts, rfl⟩ : ∃ a b l, t = a :: b :: l := by
    match t, ht with
    | a :: b :: l, _ => exact ⟨a, b, l, rfl⟩
  obtain ⟨x0, x1, xs, rfl⟩ : ∃ a b l, x = a :: b :: l := by
    match x, hx with
    | a :: b :: l, _ => exact ⟨a, b, l, rfl⟩
  obtain ⟨y0, y1, ys, rfl⟩ : ∃ a b l, y = a :: b :: l := by
    match y, hy with
    | a :: b :: l, _ => exact ⟨a, b, l, rfl⟩
  rfl

/-- C10 witness: a concrete two-frame pixels-mode call fails. -/
theorem C10_witness :
    calculate_nested_positions (fun _ _ _ => 0) [0, 1] [0, 1] [0, 1] 1 none
      PositionUnits.pixels =
      Except.error "UnboundLocalError: local variable delta_ra referenced before assignment" :=
  C10_pixels_always_error (fun _ _ _ => 0) [0, 1] [0, 1] [0, 1] 1 none rfl rfl (by decide)

/-- C4: the combined segmentation map equals map1 at every pixel where
map1 is nonzero, and equals map2 at every pixel where map1 is zero. -/
theorem C4_add_segmentation_maps (map1 map2 : ℕ × ℕ → ℤ) (p : ℕ × ℕ) :
    add_segmentation_maps map1 map2 p = if map1 p = 0 then map2 p else map1 p := by
  unfold add_segmentation_maps
  by_cases h : map1 p = 0
  · rw [if_pos h, if_pos h, h, zero_add]
  · rw [if_neg h, if_neg h]

/-- C8: the specification claims the adjustment removes every final
segment of exactly one integration.  It does not: the shift is guarded by
delta_int[0] != 1, so breakpoints [0, 1, 2] (two segments of one
integration each) are left unchanged and the final segment still contains
exactly one integration. -/
theorem C8_counterexample :
    adjust_file_segment_indexes [0, 1, 2] = [0, 1, 2] ∧ lastDelta [0, 1, 2] = 1 := by
  constructor
  · rfl
  · rfl

/-- C8 (amended): when there are more than two breakpoints, the final
integration delta is 1, and the first integration delta is not 1, the
next-to-last breakpoint is shifted down by one, leaving the last
breakpoint in place and giving the final segment exactly two integrations;
in every other situation (including the all-deltas-one and
two-breakpoint cases, where a one-integration final segment survives) the
breakpoints are returned unchanged. -/
theorem C8_amended_final_segment (fsi : List ℤ) (h3 : 2 < fsi.length) :
    (lastDelta fsi = 1 → firstDelta fsi ≠ 1 →
      lastDelta (adjust_file_segment_indexes fsi) = 2 ∧
      (adjust_file_segment_indexes fsi).length = fsi.length ∧
      (adjust_file_segment_indexes fsi).reverse.getD 0 0 = fsi.reverse.getD 0 0 ∧
      (adjust_file_segment_indexes fsi).reverse.getD 1 0 = fsi.reverse.getD 1 0 - 1) ∧
    (¬ (lastDelta fsi = 1 ∧ firstDelta fsi ≠ 1) →
      adjust_file_segment_indexes fsi = fsi) := by
  obtain ⟨c, b, rest, hrev⟩ : ∃ c b rest, fsi.reverse = c :: b :: rest := by
    have hlen : 2 < fsi.reverse.length := by
      rw [List.length_reverse]; exact h3
    match hr : fsi.reverse, hlen with
    | [], h => exact absurd h (by simp)
    | [c], h => exact absurd h (by simp)
    | c :: b :: rest, _ => exact ⟨c, b, rest, rfl⟩
  constructor
  · intro hc1 hc2
    unfold adjust_file_segment_indexes
    rw [if_pos h3, if_pos ⟨hc1, hc2⟩, hrev]
    refine ⟨?_, ?_, ?_, ?_⟩
    · unfold lastDelta at hc1 ⊢
      rw [hrev] at hc1
      rw [List.reverse_reverse]
      simp only [List.getD_cons_zero, List.getD_cons_succ] at hc1 ⊢
      omega
    · have h1 : fsi.length = fsi.reverse.length := (List.length_reverse fsi).symm
      rw [h1, hrev]
      simp [List.length_reverse]
    · rw [List.reverse_reverse]
      simp [List.getD_cons_zero]
    · rw [List.reverse_reverse]
      simp [List.getD_cons_zero, List.getD_cons_succ]
  · intro hc
    unfold adjust_file_segment_indexes
    rw [if_pos h3, if_neg hc]

/-- C8 (amended) witness: breakpoints [0, 3, 6, 7] become [0, 3, 5, 7];
the final segment then holds two integrations. -/
theorem C8_amended_witness :
    lastDelta (adjust_file_segment_indexes [0, 3, 6, 7]) = 2 := by
  have h := C8_amended_final_segment [0, 3, 6, 7] (by decide)
  exact (h.1 (by decide) (by decide)).1

/-- C5: the specification claims the rescale fallback brings the stamp sum
to exact equality with total_counts.  It does not: the python rescales to
total_counts * limit.  With an evaluated stamp summing to 1/2,
total_counts = 1 and the default 2 percent threshold, the fallback fires
and the resulting sum is SERSIC_FRACTIONAL_SIGNAL = 0.9995, not 1. -/
theorem C5_counterexample :
    |1 - ([(1 : ℚ) / 2]).sum / (1 * SERSIC_FRACTIONAL_SIGNAL)| > 1 / 50 ∧
    (create_galaxy_rescale [1 / 2] 1 SERSIC_FRACTIONAL_SIGNAL (1 / 50)).sum =
      SERSIC_FRACTIONAL_SIGNAL ∧
    SERSIC_FRACTIONAL_SIGNAL ≠ 1 := by
  refine ⟨by norm_num [SERSIC_FRACTIONAL_SIGNAL, abs], ?_, by norm_num [SERSIC_FRACTIONAL_SIGNAL]⟩
  rw [create_galaxy_rescale, if_pos (by norm_num [SERSIC_FRACTIONAL_SIGNAL, abs])]
  norm_num [SERSIC_FRACTIONAL_SIGNAL]

/-- C5 (amended): for a positive evaluated stamp sum, positive target
signal and captured-flux fraction, and nonnegative threshold, the final
stamp sum is always within the relative threshold of
total_counts * limit (not of total_counts); in particular, whenever the
evaluated model misses that tolerance the rescale fallback makes the sum
exactly total_counts * limit. -/
theorem C5_amended_rescale (stamp : List ℚ) (total_counts limit threshold : ℚ)
    (htot : 0 < total_counts) (hlim : 0 < limit) (hthr : 0 ≤ threshold)
    (hsum : 0 < stamp.sum) :
    (|1 - stamp.sum / (total_counts * limit)| > threshold →
      (create_galaxy_rescale stamp total_counts limit threshold).sum = total_counts * limit) ∧
    |1 - (create_galaxy_rescale stamp total_counts limit threshold).sum /
      (total_counts * limit)| ≤ threshold := by
  have hs0 : stamp.sum ≠ 0 := ne_of_gt hsum
  have hc0 : total_counts * limit ≠ 0 := by positivity
  have hmap : (stamp.map (fun v => v / stamp.sum * (total_counts * limit))).sum
      = total_counts * limit := by
    have hfun : (fun v : ℚ => v / stamp.sum * (total_counts * limit))
        = fun v : ℚ => v * (total_counts * limit / stamp.sum) := by
      funext v
      field_simp
    rw [hfun, show (fun v : ℚ => v * (total_counts * limit / stamp.sum))
        = fun v : ℚ => id v * (total_counts * limit / stamp.sum) from rfl,
      List.sum_map_mul_right, List.map_id]
    field_simp
  constructor
  · intro htrig
    rw [create_galaxy_rescale, if_pos htrig]
    exact hmap
  · by_cases htrig : |1 - stamp.sum / (total_counts * limit)| > threshold
    · rw [create_galaxy_rescale, if_pos htrig, hmap, div_self hc0]
      simpa using hthr
    · rw [create_galaxy_rescale, if_neg htrig]
      push_neg at htrig
      exact htrig

/-- C5 (amended) witness: a stamp already matching the target keeps its
sum and satisfies the tolerance bound. -/
theorem C5_amended_witness :
    |1 - ([(2 : ℚ)]).sum / (4 * (1 / 2))| ≤ 1 := by
  have h := C5_amended_rescale [(2 : ℚ)] 4 (1 / 2) 1 (by norm_num) (by norm_num)
    (by norm_num) (by norm_num)
  have h2 := h.2
  rw [create_galaxy_rescale, if_neg (by norm_num [abs])] at h2
  exact h2

/-- Loop-level form of C6: with ghosts disabled, an extended or galaxies
input type errors with the not-supported message as soon as one listed
source passes the PSF check. -/
theorem movingTargetInputs_loop_not_supported {σ : Type} (input_type : MTInputType)
    (on_detector psf_ok : σ → Bool) (l : List σ)
    (hty : input_type = MTInputType.extended ∨ input_type = MTInputType.galaxies)
    (hex : ∃ s ∈ l, psf_ok s = true) :
    movingTargetInputs_loop input_type false on_detector psf_ok l =
      Except.error (not_supported_message input_type) := by
  induction l with
  | nil => simp at hex
  | cons s rest ih =>
      unfold movingTargetInputs_loop
      have hty' : ¬ (input_type = MTInputType.point_source ∧ on_detector s = false) := by
        rcases hty with h | h <;> simp [h]
      rw [if_neg hty']
      by_cases hpsf : psf_ok s = false
      · rw [if_pos hpsf]
        refine ih ?_
        rcases hex with ⟨w, hmem, hwpsf⟩
        rcases List.mem_cons.mp hmem with rfl | hmem2
        · rw [hwpsf] at hpsf
          exact absurd hpsf (by simp)
        · exact ⟨w, hmem2, hwpsf⟩
      · rw [if_neg hpsf, if_neg (by simp : ¬ (false = true))]
        rcases hty with h | h <;> rw [h]

/-- C6: movingTargetInputs with input type extended or galaxies, ghosts
disabled, and a catalog with at least one source surviving the
field-of-view pre-filter and the PSF evaluation, returns the
NotImplementedError not-supported signal instead of a ramp. -/
theorem C6_moving_extended_not_supported {σ : Type} (input_type : MTInputType)
    (fov_ok on_detector psf_ok : σ → Bool) (sources : List σ)
    (hty : input_type = MTInputType.extended ∨ input_type = MTInputType.galaxies)
    (hex : ∃ s ∈ sources, fov_ok s = true ∧ psf_ok s = true) :
    movingTargetInputs input_type false fov_ok on_detector psf_ok sources =
      Except.error (not_supported_message input_type) := by
  unfold movingTargetInputs
  refine movingTargetInputs_loop_not_supported input_type on_detector psf_ok _ hty ?_
  rcases hex with ⟨s, hmem, hfov, hpsf⟩
  exact ⟨s, List.mem_filter.mpr ⟨hmem, hfov⟩, hpsf⟩

/-- C6 witness: one in-view extended source makes the call fail with the
not-supported message. -/
theorem C6_witness :
    movingTargetInputs MTInputType.extended false (fun _ => true) (fun _ => true)
      (fun _ => true) [()] = Except.error "Moving extended objects not yet supported." :=
  C6_moving_extended_not_supported MTInputType.extended (fun _ => true) (fun _ => true)
    (fun _ => true) [()] (Or.inl rfl) ⟨(), List.mem_singleton.mpr rfl, rfl, rfl⟩

/-- The overlap flag is false exactly when the catalogs are pairwise
disjoint in index values. -/
theorem cats_overlap_eq_false_iff (cats : List (List ℕ)) :
    cats_overlap cats = false ↔
      cats.Pairwise (fun c1 c2 => ∀ v, v ∈ c1 → v ∉ c2) := by
  induction cats with
  | nil => simp [cats_overlap]
  | cons c rest ih =>
      simp only [cats_overlap, Bool.or_eq_false_iff, List.pairwise_cons, ih,
        List.any_eq_false, List.any_eq_true, decide_eq_true_eq]
      constructor
      · rintro ⟨h1, h2⟩
        exact ⟨fun c2 hc2 v hv hvc2 => h1 v hv ⟨c2, hc2, hvc2⟩, h2⟩
      · rintro ⟨h1, h2⟩
        refine ⟨fun v hv hex => ?_, h2⟩
        obtain ⟨c2, hc2, hvc2⟩ := hex
        exact h1 c2 hc2 v hv hvc2

/-- C7: if any index value is shared between two of the used catalogs,
make_seed raises the ValueError before any rasterization work; when the
catalogs are pairwise disjoint in index values, no such error occurs and
the rasterization result is produced. -/
theorem C7_index_uniqueness {α : Type} (used_cats : List (List ℕ)) (rasterize : Unit → α) :
    (¬ used_cats.Pairwise (fun c1 c2 => ∀ v, v ∈ c1 → v ∉ c2) →
      make_seed_index_check used_cats rasterize =
        Except.error
          "At least two of the input source catalogs have overlapping index values. Each source across all catalogs should have a unique index value.") ∧
    (used_cats.Pairwise (fun c1 c2 => ∀ v, v ∈ c1 → v ∉ c2) →
      make_seed_index_check used_cats rasterize = Except.ok (rasterize ())) := by
  constructor
  · intro h
    have hov : cats_overlap used_cats = true := by
      cases hb : cats_overlap used_cats with
      | false => exact absurd ((cats_overlap_eq_false_iff used_cats).mp hb) h
      | true => rfl
    rw [make_seed_index_check]
    rw [if_pos]
    exact hov
  · intro h
    have hov : cats_overlap used_cats = false := (cats_overlap_eq_false_iff used_cats).mpr h
    rw [make_seed_index_check]
    rw [if_neg]
    simp [catalog_index_check, hov]

/-- C7 witness: catalogs [1] and [1] share index 1 and are rejected;
catalogs [1] and [2] pass and rasterization runs. -/
theorem C7_witness :
    make_seed_index_check [[1], [1]] (fun _ => (7 : ℕ)) =
      Except.error
        "At least two of the input source catalogs have overlapping index values. Each source across all catalogs should have a unique index value." ∧
    make_seed_index_check [[1], [2]] (fun _ => (7 : ℕ)) = Except.ok 7 := by
  constructor
  · exact (C7_index_uniqueness [[1], [1]] (fun _ => (7 : ℕ))).1 (by decide)
  · exact (C7_index_uniqueness [[1], [2]] (fun _ => (7 : ℕ))).2 (by decide)

/-- Helper: getD through map at an in-range index. -/
theorem getD_map_at {α β : Type} (f : α → β) (l : List α) (t : ℕ) (d : α) (d0 : β)
    (ht : t < l.length) :
    (l.map f).getD t d0 = f (l.getD t d) := by
  induction l generalizing t with
  | nil => simp at ht
  | cons a l ih =>
      cases t with
      | zero => simp
      | succ n =>
          simp only [List.map_cons, List.getD_cons_succ]
          exact ih n (by simpa using ht)

/-- Helper: pointwise difference of two maps over the same list. -/
theorem zipWith_sub_map_map (g h : ℚ → ℚ) (l : List ℚ) :
    List.zipWith (fun a b => a - b) (l.map g) (l.map h) = l.map (fun s => g s - h s) := by
  induction l with
  | nil => rfl
  | cons a l ih => simp [ih]

/-- C9: the specification says the offset subtracted from every background
source is the tracked-target displacement since the first frame.  In the
manual-velocity branch it is velocity times the frame clock time instead,
and the first listed frame sits at clock -frametime: with frametime 1 and
velocity 3600 pixels per hour the subtracted offset at the first frame is
-1, while the displacement of the tracked target since the first frame is
0 there. -/
theorem C9_counterexample :
    (frameexptimes 1 2).getD 0 0 = -1 ∧
    (delta_non_sidereal_vel_pix 3600 (frameexptimes 1 2)).getD 0 0 = -1 ∧
    ((5 : ℚ) + 3600 / 3600 * ((frameexptimes 1 2).getD 0 0)) -
      (5 + 3600 / 3600 * ((frameexptimes 1 2).getD 0 0)) = 0 ∧
    (-1 : ℚ) ≠ 0 := by
  have hfet : frameexptimes 1 2 = [-1, 0, 1] := by
    simp [frameexptimes, List.range_succ]
    norm_num
  refine ⟨by rw [hfet]; rfl, ?_, by ring, by norm_num⟩
  rw [hfet]
  norm_num [delta_non_sidereal_vel_pix]

/-- C9 (amended): in the ephemeris branch the subtracted offset at frame t
is exactly the tracked-target displacement since the first listed frame;
in the manual-velocity branch it is velocity times the frame clock time,
i.e. the displacement since clock zero, and the first listed frame time is
-frametime, so the two reference points differ by one frametime.  In both
branches a background source co-moving with the tracked target has a
constant corrected position, which is the stationary-target behavior the
sign convention is meant to produce. -/
theorem C9_amended_tracking_offsets (interp : ℚ → ℚ) (times : List ℚ) (t : ℕ)
    (ht : t < times.length) (frametime : ℚ) (nt : ℕ) (u : ℕ) (hu : u < nt + 1)
    (vel p0 q0 : ℚ) :
    (delta_non_sidereal_eph interp times).getD t 0 =
      interp (times.getD t 0) - interp (times.getD 0 0) ∧
    (delta_non_sidereal_vel_pix vel (frameexptimes frametime nt)).getD u 0 =
      (p0 + vel / 3600 * ((frameexptimes frametime nt).getD u 0)) - p0 ∧
    (frameexptimes frametime nt).getD 0 0 = -frametime ∧
    apply_tracking_offset (times.map (fun s => interp s + q0))
      (delta_non_sidereal_eph interp times) =
      times.map (fun _ => interp (times.getD 0 0) + q0) ∧
    apply_tracking_offset ((frameexptimes frametime nt).map (fun s => q0 + vel / 3600 * s))
      (delta_non_sidereal_vel_pix vel (frameexptimes frametime nt)) =
      (frameexptimes frametime nt).map (fun _ => q0) := by
  have hfetlen : (frameexptimes frametime nt).length = nt + 1 := by
    unfold frameexptimes
    rw [List.length_map, List.length_range]
  have hfet0 : (frameexptimes frametime nt).getD 0 0 = -frametime := by
    unfold frameexptimes
    rw [getD_map_at _ _ 0 0 0 (by rw [List.length_range]; omega)]
    rw [List.range_succ_eq_map]
    simp only [List.getD_cons_zero]
    push_cast
    ring
  obtain ⟨t0, ts, rfl⟩ : ∃ a l, times = a :: l := by
    match times, ht with
    | a :: l, _ => exact ⟨a, l, rfl⟩
  have hhead : ((t0 :: ts).map interp).headD 0 = interp t0 := by simp
  refine ⟨?_, ?_, hfet0, ?_, ?_⟩
  · unfold delta_non_sidereal_eph
    rw [List.map_map]
    rw [getD_map_at _ _ t 0 0 ht]
    simp [hhead]
  · rw [delta_non_sidereal_vel_pix, getD_map_at _ _ u 0 0 (by rw [hfetlen]; exact hu)]
    ring
  · unfold apply_tracking_offset delta_non_sidereal_eph
    rw [List.map_map, hhead]
    rw [zipWith_sub_map_map]
    have hfun : (fun s => (interp s + q0) - ((fun v => v - interp t0) ∘ interp) s)
        = fun _ : ℚ => interp t0 + q0 := by
      funext s
      simp only [Function.comp]
      ring
    rw [hfun]
    simp only [List.getD_cons_zero]
  · unfold apply_tracking_offset delta_non_sidereal_vel_pix
    rw [zipWith_sub_map_map]
    have hfun : (fun s => (q0 + vel / 3600 * s) - vel / 3600 * s) = fun _ : ℚ => q0 := by
      funext s
      ring
    rw [hfun]

/-- C9 (amended) witness: with frametime 1 the first listed frame time is
-1. -/
theorem C9_amended_witness :
    (frameexptimes 1 1).getD 0 0 = -1 := by
  have h := C9_amended_tracking_offsets id [0, 1] 1 (by decide) 1 1 0 (by decide) 3600 0 2
  simpa using h.2.2.1

end Mirage
